import Mathlib

/-!
Shallow embedding of the connection and messaging subsystem of the
sns_application repository (flaskr/models.py, flaskr/views.py,
flaskr/forms.py).  Database tables are modelled as Lean lists kept in
primary-key (insertion) order; each SQLAlchemy query method becomes a
pure function over such a list.  Timestamps are modelled as natural
numbers.
-/

/-- A row of the user_connects table (flaskr/models.py, class UserConnect).
status 1 means pending, 2 means accepted. -/
structure UserConnect where
  id : Nat
  from_user_id : Nat
  to_user_id : Nat
  status : Nat
  create_at : Nat
  update_at : Nat
  deriving Repr, DecidableEq

/-- UserConnect.select_by_from_user_id (models.py): the first row whose
from_user_id is the given id and whose to_user_id is the current viewer. -/
def UserConnect.select_by_from_user_id (db : List UserConnect)
    (viewer from_user : Nat) : Option UserConnect :=
  db.find? (fun e => e.from_user_id == from_user && e.to_user_id == viewer)

/-- UserConnect.update_status (models.py): set status to 2 and refresh
update_at to the current time. -/
def UserConnect.update_status (e : UserConnect) (now : Nat) : UserConnect :=
  { e with status := 2, update_at := now }

/-- UserConnect.is_friend (models.py): true iff some row with status 2
joins the viewer and the other user, in either direction. -/
def UserConnect.is_friend (db : List UserConnect) (viewer to_user : Nat) : Bool :=
  (db.find? (fun e =>
    (e.from_user_id == viewer && e.to_user_id == to_user && e.status == 2)
    || (e.from_user_id == to_user && e.to_user_id == viewer && e.status == 2))).isSome

/-- The connect branch of views.connect_user: unconditionally insert a new
UserConnect row from the viewer to the target; the status column default 1
(pending) and timestamp defaults apply. -/
def connect_user_connect (db : List UserConnect)
    (viewer to_user fresh_id now : Nat) : List UserConnect :=
  db ++ [⟨fresh_id, viewer, to_user, 1, now, now⟩]

/-- The accept branch of views.connect_user: look up the first edge from
the given user to the viewer via select_by_from_user_id; if present, apply
update_status to that row in place; if absent, do nothing. -/
def connect_user_accept (viewer from_user now : Nat) :
    List UserConnect → List UserConnect
  | [] => []
  | e :: rest =>
    if e.from_user_id == from_user && e.to_user_id == viewer
    then UserConnect.update_status e now :: rest
    else e :: connect_user_accept viewer from_user now rest

/-- A row of the messages table (flaskr/models.py, class TalkMessage). -/
structure TalkMessage where
  id : Nat
  from_user_id : Nat
  to_user_id : Nat
  is_read : Bool
  is_checked : Bool
  message : String
  create_at : Nat
  update_at : Nat
  deriving Repr, DecidableEq

/-- The order_by(desc(TalkMessage.id)) relation: newest (largest id) first. -/
def TalkMessage.msgDesc (a b : TalkMessage) : Prop := b.id ≤ a.id

/-- The ascending-id (oldest first, forward chronological) relation. -/
def TalkMessage.msgAsc (a b : TalkMessage) : Prop := a.id ≤ b.id

instance : DecidableRel TalkMessage.msgDesc :=
  fun a b => inferInstanceAs (Decidable (b.id ≤ a.id))

instance : DecidableRel TalkMessage.msgAsc :=
  fun a b => inferInstanceAs (Decidable (a.id ≤ b.id))

instance : IsTotal TalkMessage TalkMessage.msgDesc :=
  ⟨fun a b => le_total b.id a.id⟩

instance : IsTrans TalkMessage TalkMessage.msgDesc :=
  ⟨fun _ _ _ h1 h2 => le_trans h2 h1⟩

/-- TalkMessage.get_friend_messages (models.py): the messages between the
two users, ordered by descending id, with offset and limit applied
(defaults offset 0, limit 50). -/
def TalkMessage.get_friend_messages (db : List TalkMessage) (id1 id2 : Nat)
    (offset_value : Nat := 0) (limit_value : Nat := 50) : List TalkMessage :=
  ((((db.filter (fun m =>
      (m.from_user_id == id1 && m.to_user_id == id2)
      || (m.from_user_id == id2 && m.to_user_id == id1))).insertionSort
        TalkMessage.msgDesc).drop offset_value).take limit_value)

/-- TalkMessage.update_is_read_by_ids (models.py): the SQL UPDATE setting
is_read to 1 on exactly the rows whose id is in the given list. -/
def TalkMessage.update_is_read_by_ids (ids : List Nat)
    (db : List TalkMessage) : List TalkMessage :=
  db.map (fun m => if m.id ∈ ids then { m with is_read := true } else m)

/-- TalkMessage.update_is_checked_by_ids (models.py): the SQL UPDATE
setting is_checked to 1 on exactly the rows whose id is in the list. -/
def TalkMessage.update_is_checked_by_ids (ids : List Nat)
    (db : List TalkMessage) : List TalkMessage :=
  db.map (fun m => if m.id ∈ ids then { m with is_checked := true } else m)

/-- TalkMessage.select_not_read_messages (models.py): rows from the given
sender to the given recipient with is_read false, in id order. -/
def TalkMessage.select_not_read_messages (db : List TalkMessage)
    (from_user to_user : Nat) : List TalkMessage :=
  db.filter (fun m =>
    m.from_user_id == from_user && m.to_user_id == to_user && m.is_read == false)

/-- TalkMessage.select_not_checked_messages (models.py): rows from the
given sender to the given recipient with is_read true and is_checked
false, in id order. -/
def TalkMessage.select_not_checked_messages (db : List TalkMessage)
    (from_user to_user : Nat) : List TalkMessage :=
  db.filter (fun m =>
    m.from_user_id == from_user && m.to_user_id == to_user
    && m.is_read == true && m.is_checked == false)

/-- MessageForm.validate (forms.py): the form validates only when the
viewer and the target are friends. -/
def MessageForm.validate (conns : List UserConnect) (viewer to_user : Nat) : Bool :=
  UserConnect.is_friend conns viewer to_user

/-- The result of the message_ajax endpoint (views.py): the rendered
not-yet-read messages (data), the newly checked message ids, and the
message store after both updates. -/
structure AjaxResult where
  data : List TalkMessage
  checked_message_ids : List Nat
  store : List TalkMessage
  deriving Repr, DecidableEq

/-- views.message_ajax: fetch the peer-to-viewer unread messages, mark
them read (when any), then fetch the viewer-to-peer read-but-unchecked
messages from the updated store and mark them checked (when any);
return the unread messages (their rendered content), the checked ids,
and the final store. -/
def message_ajax (msgs : List TalkMessage) (viewer peer : Nat) : AjaxResult :=
  let not_read_messages := TalkMessage.select_not_read_messages msgs peer viewer
  let not_read_message_ids := not_read_messages.map (·.id)
  let msgs1 := if not_read_message_ids.isEmpty then msgs
    else TalkMessage.update_is_read_by_ids not_read_message_ids msgs
  let not_checked_messages := TalkMessage.select_not_checked_messages msgs1 viewer peer
  let not_checked_message_ids := not_checked_messages.map (·.id)
  let msgs2 := if not_checked_message_ids.isEmpty then msgs1
    else TalkMessage.update_is_checked_by_ids not_checked_message_ids msgs1
  ⟨not_read_messages, not_checked_message_ids, msgs2⟩

/-- views.message, store updates: the newest 50 messages of the pair are
fetched; from that snapshot the unread peer-to-viewer ids and the
read-but-unchecked viewer-to-peer ids are computed; the checked update is
applied first, then the read update, each skipped on an empty id list as
in the view. -/
def message_view_updates (msgs : List TalkMessage) (viewer peer : Nat) :
    List TalkMessage :=
  let messages := TalkMessage.get_friend_messages msgs viewer peer
  let read_message_ids := (messages.filter (fun m =>
    m.is_read == false && m.from_user_id == peer)).map (·.id)
  let not_checked_message_ids := (messages.filter (fun m =>
    m.is_read == true && m.is_checked == false
    && m.from_user_id == viewer)).map (·.id)
  let msgs1 := if not_checked_message_ids.isEmpty then msgs
    else TalkMessage.update_is_checked_by_ids not_checked_message_ids msgs
  if read_message_ids.isEmpty then msgs1
  else TalkMessage.update_is_read_by_ids read_message_ids msgs1

/-- views.message: the conversation view.  If the peer is not a friend the
request is redirected and the store is untouched.  Otherwise the updates
of message_view_updates run; on a POST whose form validates, one new row
with is_read false and is_checked false is appended. -/
def message_view (msgs : List TalkMessage) (conns : List UserConnect)
    (viewer peer : Nat) (post : Option String) (fresh_id now : Nat) :
    List TalkMessage :=
  if UserConnect.is_friend conns viewer peer = false then msgs
  else
    match post with
    | none => message_view_updates msgs viewer peer
    | some text =>
      if MessageForm.validate conns viewer peer
      then message_view_updates msgs viewer peer
        ++ [⟨fresh_id, viewer, peer, false, false, text, now, now⟩]
      else message_view_updates msgs viewer peer

/-- views.load_old_messages: fetch one older page, offset_value pages of
50 back, via get_friend_messages. -/
def load_old_messages (msgs : List TalkMessage) (viewer peer offset_value : Nat) :
    List TalkMessage :=
  TalkMessage.get_friend_messages msgs viewer peer (offset_value * 50)

/-- The iteration order of make_old_message_format
(flaskr/utils/message_format.py): the fetched list is traversed reversed,
so the rendered fragment lists messages oldest first. -/
def make_old_message_order (messages : List TalkMessage) : List TalkMessage :=
  messages.reverse

/-- A row of the password_reset_tokens table (models.py). -/
structure PasswordResetToken where
  id : Nat
  token : String
  user_id : Nat
  expire_at : Nat
  create_at : Nat
  update_at : Nat
  deriving Repr, DecidableEq

/-- PasswordResetToken.get_user_id_by_token (models.py): the user id of
the first row matching the token whose expire_at is strictly after now;
None when no such row exists. -/
def PasswordResetToken.get_user_id_by_token (db : List PasswordResetToken)
    (token : String) (now : Nat) : Option Nat :=
  (db.find? (fun r => r.token == token && decide (now < r.expire_at))).map
    (·.user_id)

/-- PasswordResetToken.delete_token (models.py): delete every row whose
token matches. -/
def PasswordResetToken.delete_token (db : List PasswordResetToken)
    (token : String) : List PasswordResetToken :=
  db.filter (fun r => !(r.token == token))

/-- The messaging invariant: a checked message is always read. -/
def MsgInv (msgs : List TalkMessage) : Prop :=
  ∀ m ∈ msgs, m.is_checked = true → m.is_read = true

/-- Primary-key uniqueness of the messages table. -/
def NodupIds (msgs : List TalkMessage) : Prop :=
  (msgs.map TalkMessage.id).Nodup

/-- One message evolving monotonically: same id, is_read never falls back
to false, is_checked never falls back to false. -/
def MonoR (m m2 : TalkMessage) : Prop :=
  m2.id = m.id ∧ (m.is_read = true → m2.is_read = true)
    ∧ (m.is_checked = true → m2.is_checked = true)

instance (msgs : List TalkMessage) : Decidable (NodupIds msgs) :=
  inferInstanceAs (Decidable ((msgs.map TalkMessage.id).Nodup))

instance (msgs : List TalkMessage) : Decidable (MsgInv msgs) :=
  inferInstanceAs (Decidable (∀ m ∈ msgs, m.is_checked = true → m.is_read = true))

/-! ### Password-reset token claims -/

/-- Claim C7: deleting a token and then resolving it always yields none:
a password reset token is single-use. -/
theorem consume_then_resolve_absent (db : List PasswordResetToken)
    (token : String) (now : Nat) :
    PasswordResetToken.get_user_id_by_token
      (PasswordResetToken.delete_token db token) token now = none := by
  have h : (PasswordResetToken.delete_token db token).find?
      (fun r => r.token == token && decide (now < r.expire_at)) = none := by
    apply List.find?_eq_none.mpr
    intro r hr
    rcases List.mem_filter.mp hr with ⟨_, hne⟩
    simp only [Bool.not_eq_true', beq_eq_false_iff_ne, ne_eq] at hne
    simp [hne]
  simp [PasswordResetToken.get_user_id_by_token, h]

/-- Claim C6: resolving a token returns the associated user id exactly when
a stored row matches the token with expiry strictly in the future; when
every matching row has already expired the result is none even though the
rows are still present. -/
theorem resolve_token_contract (db : List PasswordResetToken)
    (token : String) (now uid : Nat)
    (hnd : (db.map PasswordResetToken.token).Nodup) :
    (PasswordResetToken.get_user_id_by_token db token now = some uid ↔
      ∃ r ∈ db, r.token = token ∧ now < r.expire_at ∧ r.user_id = uid)
    ∧ ((∀ r ∈ db, r.token = token → r.expire_at ≤ now) →
        PasswordResetToken.get_user_id_by_token db token now = none) := by
  constructor
  · constructor
    · intro h
      simp only [PasswordResetToken.get_user_id_by_token, Option.map_eq_some'] at h
      rcases h with ⟨r, hfind, huid⟩
      have hmem := List.mem_of_find?_eq_some hfind
      have hp := List.find?_some hfind
      simp only [Bool.and_eq_true, beq_iff_eq, decide_eq_true_eq] at hp
      exact ⟨r, hmem, hp.1, hp.2, huid⟩
    · rintro ⟨r, hmem, htok, hlt, huid⟩
      simp only [PasswordResetToken.get_user_id_by_token]
      cases hfind : db.find? (fun r => r.token == token && decide (now < r.expire_at)) with
      | none =>
        exfalso
        have := List.find?_eq_none.mp hfind r hmem
        simp [htok, hlt] at this
      | some r2 =>
        have hmem2 := List.mem_of_find?_eq_some hfind
        have hp2 := List.find?_some hfind
        simp only [Bool.and_eq_true, beq_iff_eq, decide_eq_true_eq] at hp2
        have : r2 = r :=
          List.inj_on_of_nodup_map hnd hmem2 hmem (by rw [hp2.1, htok])
        subst this
        simp [huid]
  · intro hexp
    have h : db.find? (fun r => r.token == token && decide (now < r.expire_at)) = none := by
      apply List.find?_eq_none.mpr
      intro r hr
      by_cases ht : r.token = token
      · have := hexp r hr ht
        simp only [Bool.and_eq_true, beq_iff_eq, decide_eq_true_eq, not_and]
        intro _
        omega
      · simp [ht]
    simp [PasswordResetToken.get_user_id_by_token, h]

/-- Witness for resolve_token_contract: a store holding one live token and
one expired token; the live one resolves, the expired one does not. -/
theorem resolve_token_contract_witness :
    (PasswordResetToken.get_user_id_by_token
        [⟨1, "a", 7, 10, 0, 0⟩] "a" 3 = some 7 ↔
      ∃ r ∈ [(⟨1, "a", 7, 10, 0, 0⟩ : PasswordResetToken)],
        r.token = "a" ∧ 3 < r.expire_at ∧ r.user_id = 7)
    ∧ ((∀ r ∈ [(⟨1, "a", 7, 10, 0, 0⟩ : PasswordResetToken)],
          r.token = "a" → r.expire_at ≤ 20) →
        PasswordResetToken.get_user_id_by_token
          [⟨1, "a", 7, 10, 0, 0⟩] "a" 20 = none) :=
  ⟨(resolve_token_contract [⟨1, "a", 7, 10, 0, 0⟩] "a" 3 7 (by decide)).1,
   (resolve_token_contract [⟨1, "a", 7, 10, 0, 0⟩] "a" 20 7 (by decide)).2⟩

/-! ### Connection-graph claims -/

/-- Claim C8: when no stored edge points from the given user to the
current viewer, the accept branch of connect_user leaves the store
untouched (a silent no-op, no error surfaces); acceptance only ever
considers edges pointing at the viewer. -/
theorem accept_without_edge_noop (db : List UserConnect)
    (viewer from_user now : Nat)
    (h : UserConnect.select_by_from_user_id db viewer from_user = none) :
    connect_user_accept viewer from_user now db = db := by
  induction db with
  | nil => rfl
  | cons e rest ih =>
    rw [UserConnect.select_by_from_user_id, List.find?_cons] at h
    cases hpe : (e.from_user_id == from_user && e.to_user_id == viewer) with
    | true => rw [hpe] at h; cases h
    | false =>
      rw [hpe] at h
      simp only [connect_user_accept, hpe, Bool.false_eq_true, if_false]
      rw [ih h]

/-- Witness for accept_without_edge_noop: a store whose only edge runs in
the opposite direction; accepting changes nothing. -/
theorem accept_without_edge_noop_witness :
    connect_user_accept 2 3 9 [⟨1, 2, 3, 1, 0, 0⟩] = [⟨1, 2, 3, 1, 0, 0⟩] :=
  accept_without_edge_noop [⟨1, 2, 3, 1, 0, 0⟩] 2 3 9 (by decide)

/-- Claim C9: the connect branch of connect_user always appends one fresh
edge with status 1 (pending), with no de-duplication: on any store,
including one already holding edges between the pair in either direction
and either status, the number of pending edges for the directed pair grows
by exactly one and all existing rows are kept unchanged. -/
theorem request_connection_appends_pending (db : List UserConnect)
    (viewer to_user fresh_id now : Nat) :
    connect_user_connect db viewer to_user fresh_id now
      = db ++ [⟨fresh_id, viewer, to_user, 1, now, now⟩]
    ∧ (connect_user_connect db viewer to_user fresh_id now).length = db.length + 1
    ∧ ((connect_user_connect db viewer to_user fresh_id now).filter
        (fun e => e.from_user_id == viewer && e.to_user_id == to_user
          && e.status == 1)).length
      = ((db.filter (fun e => e.from_user_id == viewer && e.to_user_id == to_user
          && e.status == 1))).length + 1 := by
  refine ⟨rfl, by simp [connect_user_connect], ?_⟩
  simp [connect_user_connect, List.filter_append]

/-! ### Frame property of the bulk flag updates -/

/-- Claim C10: the bulk mark-read update changes only the is_read flag and
only on rows whose id is listed, and the bulk mark-checked update changes
only the is_checked flag and only on listed rows; every other field
(sender, recipient, text, create_at, update_at) of every row, and every
unlisted row entirely, is unchanged, stated field by field at every
position of the store. -/
theorem update_flags_frame (ids : List Nat) (msgs : List TalkMessage) (i : Nat) :
    (TalkMessage.update_is_read_by_ids ids msgs)[i]? = (msgs[i]?).map (fun m =>
        TalkMessage.mk m.id m.from_user_id m.to_user_id
          (if m.id ∈ ids then true else m.is_read) m.is_checked
          m.message m.create_at m.update_at)
    ∧ (TalkMessage.update_is_checked_by_ids ids msgs)[i]? = (msgs[i]?).map (fun m =>
        TalkMessage.mk m.id m.from_user_id m.to_user_id m.is_read
          (if m.id ∈ ids then true else m.is_checked)
          m.message m.create_at m.update_at) := by
  constructor <;>
    simp only [TalkMessage.update_is_read_by_ids,
      TalkMessage.update_is_checked_by_ids, List.getElem?_map] <;>
    cases msgs[i]? with
  | none => rfl
  | some m => by_cases hm : m.id ∈ ids <;> simp [hm]

/-- Helper: is_friend is false when no accepted edge joins the pair in
either direction. -/
theorem is_friend_eq_false_of_no_accepted (db : List UserConnect) (u v : Nat)
    (h : ∀ e ∈ db, e.status = 2 →
      ¬((e.from_user_id = u ∧ e.to_user_id = v)
        ∨ (e.from_user_id = v ∧ e.to_user_id = u))) :
    UserConnect.is_friend db u v = false := by
  have h2 : db.find? (fun e =>
      (e.from_user_id == u && e.to_user_id == v && e.status == 2)
      || (e.from_user_id == v && e.to_user_id == u && e.status == 2)) = none := by
    apply List.find?_eq_none.mpr
    intro e he hp
    have hne := h e he
    rcases (by simpa using hp :
        ((e.from_user_id = u ∧ e.to_user_id = v) ∧ e.status = 2)
        ∨ ((e.from_user_id = v ∧ e.to_user_id = u) ∧ e.status = 2)) with h1 | h1
    · exact hne h1.2 (Or.inl h1.1)
    · exact hne h1.2 (Or.inr h1.1)
  simp [UserConnect.is_friend, h2]

/-- Helper: when select_by_from_user_id finds a row, the store splits as a
prefix of non-matching rows, the found row, and a suffix, and the accept
branch rewrites exactly the found row through update_status. -/
theorem connect_user_accept_found (A B t : Nat) :
    ∀ (db : List UserConnect) (e0 : UserConnect),
    UserConnect.select_by_from_user_id db B A = some e0 →
    ∃ l1 l2, db = l1 ++ e0 :: l2
      ∧ (∀ e ∈ l1, (e.from_user_id == A && e.to_user_id == B) = false)
      ∧ connect_user_accept B A t db = l1 ++ UserConnect.update_status e0 t :: l2
  | [], e0, h => by cases h
  | e :: rest, e0, h => by
    rw [UserConnect.select_by_from_user_id, List.find?_cons] at h
    cases hpe : (e.from_user_id == A && e.to_user_id == B) with
    | true =>
      rw [hpe] at h
      obtain rfl : e = e0 := Option.some.inj h
      refine ⟨[], rest, by simp, by simp, ?_⟩
      simp [connect_user_accept, hpe]
    | false =>
      rw [hpe] at h
      obtain ⟨l1, l2, hdb, hl1, hacc⟩ := connect_user_accept_found A B t rest e0 h
      refine ⟨e :: l1, l2, by simp [hdb], ?_, ?_⟩
      · intro e2 he2
        rcases List.mem_cons.mp he2 with rfl | he2
        · exact hpe
        · exact hl1 e2 he2
      · simp [connect_user_accept, hpe, hacc]

/-- Helper: find? skips a prefix on which the predicate is false. -/
theorem find?_append_of_prefix_false {α : Type} {p : α → Bool} {l1 l2 : List α}
    (h : ∀ x ∈ l1, p x = false) : (l1 ++ l2).find? p = l2.find? p := by
  induction l1 with
  | nil => rfl
  | cons a l ih =>
    rw [List.cons_append, List.find?_cons, h a (List.mem_cons_self a l)]
    exact ih (fun x hx => h x (List.mem_cons_of_mem a hx))

/-- Claim C1: with a pending edge from A to B selected by the accept
lookup and no accepted edge yet between the pair, the viewer B accepting
moves that edge from status 1 to status 2, refreshes its update timestamp
to the acceptance time, and is_friend flips from false to true in both
argument orderings. -/
theorem accept_pending_flips_is_friend (db : List UserConnect)
    (A B t : Nat) (e0 : UserConnect)
    (hfind : UserConnect.select_by_from_user_id db B A = some e0)
    (hpending : e0.status = 1)
    (hnoacc : ∀ e ∈ db, e.status = 2 →
      ¬((e.from_user_id = A ∧ e.to_user_id = B)
        ∨ (e.from_user_id = B ∧ e.to_user_id = A))) :
    UserConnect.is_friend db A B = false
    ∧ UserConnect.is_friend db B A = false
    ∧ UserConnect.select_by_from_user_id (connect_user_accept B A t db) B A
        = some { e0 with status := 2, update_at := t }
    ∧ UserConnect.is_friend (connect_user_accept B A t db) A B = true
    ∧ UserConnect.is_friend (connect_user_accept B A t db) B A = true := by
  have hfind2 : db.find? (fun e => e.from_user_id == A && e.to_user_id == B)
      = some e0 := hfind
  have hpred := List.find?_some hfind2
  rcases (by simpa using hpred : e0.from_user_id = A ∧ e0.to_user_id = B)
    with ⟨hfrom, hto⟩
  obtain ⟨l1, l2, hdb, hl1, hacc⟩ := connect_user_accept_found A B t db e0 hfind
  have hmem : UserConnect.update_status e0 t ∈ connect_user_accept B A t db := by
    rw [hacc]
    exact List.mem_append_right l1 (List.mem_cons_self _ _)
  refine ⟨?_, ?_, ?_, ?_, ?_⟩
  · exact is_friend_eq_false_of_no_accepted db A B hnoacc
  · exact is_friend_eq_false_of_no_accepted db B A
      (fun e he h2 hor => hnoacc e he h2 hor.symm)
  · rw [hacc, UserConnect.select_by_from_user_id, find?_append_of_prefix_false hl1,
      List.find?_cons_of_pos]
    · rfl
    · simp [UserConnect.update_status, hfrom, hto]
  · simp only [UserConnect.is_friend, List.find?_isSome]
    exact ⟨UserConnect.update_status e0 t, hmem,
      by simp [UserConnect.update_status, hfrom, hto]⟩
  · simp only [UserConnect.is_friend, List.find?_isSome]
    exact ⟨UserConnect.update_status e0 t, hmem,
      by simp [UserConnect.update_status, hfrom, hto]⟩

/-- Witness for accept_pending_flips_is_friend: one pending edge from user
1 to user 2, accepted by user 2 at time 5. -/
theorem accept_pending_flips_is_friend_witness :
    UserConnect.is_friend [⟨1, 1, 2, 1, 0, 0⟩] 1 2 = false
    ∧ UserConnect.is_friend [⟨1, 1, 2, 1, 0, 0⟩] 2 1 = false
    ∧ UserConnect.select_by_from_user_id
        (connect_user_accept 2 1 5 [⟨1, 1, 2, 1, 0, 0⟩]) 2 1
        = some ⟨1, 1, 2, 2, 0, 5⟩
    ∧ UserConnect.is_friend (connect_user_accept 2 1 5 [⟨1, 1, 2, 1, 0, 0⟩]) 1 2 = true
    ∧ UserConnect.is_friend (connect_user_accept 2 1 5 [⟨1, 1, 2, 1, 0, 0⟩]) 2 1 = true :=
  accept_pending_flips_is_friend [⟨1, 1, 2, 1, 0, 0⟩] 1 2 5 ⟨1, 1, 2, 1, 0, 0⟩
    (by decide) (by decide) (by decide)

/-- Counterexample to claim C4: on a store holding two messages between
users 1 and 2 (ids 1 then 2), the conversation fetch used by the primary
view (offset 0, limit 50) returns ids [2, 1], newest first, not
oldest-first forward chronological order as the claim states. -/
theorem primary_view_fetch_not_oldest_first :
    (TalkMessage.get_friend_messages
        [⟨1, 1, 2, false, false, "a", 0, 0⟩, ⟨2, 2, 1, false, false, "b", 1, 1⟩]
        1 2 0 50).map TalkMessage.id = [2, 1]
    ∧ ¬ List.Sorted TalkMessage.msgAsc
      (TalkMessage.get_friend_messages
        [⟨1, 1, 2, false, false, "a", 0, 0⟩, ⟨2, 2, 1, false, false, "b", 1, 1⟩]
        1 2 0 50) := by
  constructor
  · rfl
  · intro h
    have := List.rel_of_sorted_cons h
    simp [TalkMessage.msgAsc, TalkMessage.get_friend_messages] at this

/-- Helper: every get_friend_messages result is sorted newest-first
(descending id). -/
theorem sorted_get_friend_messages (db : List TalkMessage)
    (u v o l : Nat) :
    List.Sorted TalkMessage.msgDesc (TalkMessage.get_friend_messages db u v o l) := by
  have h := List.sorted_insertionSort TalkMessage.msgDesc
    (db.filter (fun m =>
      (m.from_user_id == u && m.to_user_id == v)
      || (m.from_user_id == v && m.to_user_id == u)))
  exact h.sublist ((List.take_sublist _ _).trans (List.drop_sublist _ _))

/-- Claim C4 (amended): the conversation fetch returns messages
newest-first (descending id order) at both call sites, the primary view
(offset 0, limit 50) and the load-older endpoint (offset 50 pages back);
the load-older rendering then traverses the fetched page reversed, so only
the rendered older fragment comes out oldest-first.  Every returned
message is between the pair. -/
theorem get_friend_messages_ordering (db : List TalkMessage) (u v k : Nat) :
    List.Sorted TalkMessage.msgDesc (TalkMessage.get_friend_messages db u v 0 50)
    ∧ List.Sorted TalkMessage.msgDesc (load_old_messages db u v k)
    ∧ List.Sorted TalkMessage.msgAsc
        (make_old_message_order (load_old_messages db u v k))
    ∧ ∀ m ∈ TalkMessage.get_friend_messages db u v 0 50,
        (m.from_user_id = u ∧ m.to_user_id = v)
        ∨ (m.from_user_id = v ∧ m.to_user_id = u) := by
  refine ⟨sorted_get_friend_messages db u v 0 50, sorted_get_friend_messages db u v _ 50, ?_, ?_⟩
  · have h := sorted_get_friend_messages db u v (k * 50) 50
    rw [make_old_message_order, load_old_messages]
    rw [List.Sorted, List.pairwise_reverse]
    exact h.imp (fun hab => hab)
  · intro m hm
    have h1 : m ∈ db.filter (fun m =>
        (m.from_user_id == u && m.to_user_id == v)
        || (m.from_user_id == v && m.to_user_id == u)) := by
      have h2 := List.take_subset _ _ hm
      have h3 := List.drop_subset _ _ h2
      simpa using h3
    simpa using (List.mem_filter.mp h1).2

/-! ### Messaging helper lemmas -/

/-- Helper: the empty-id-list guard before the read update is redundant:
the update with an empty list is the identity. -/
theorem ite_isEmpty_update_read (ids : List Nat) (msgs : List TalkMessage) :
    (if ids.isEmpty then msgs else TalkMessage.update_is_read_by_ids ids msgs)
      = TalkMessage.update_is_read_by_ids ids msgs := by
  cases ids with
  | nil => simp [TalkMessage.update_is_read_by_ids]
  | cons a l => rfl

/-- Helper: the empty-id-list guard before the checked update is
redundant. -/
theorem ite_isEmpty_update_checked (ids : List Nat) (msgs : List TalkMessage) :
    (if ids.isEmpty then msgs else TalkMessage.update_is_checked_by_ids ids msgs)
      = TalkMessage.update_is_checked_by_ids ids msgs := by
  cases ids with
  | nil => simp [TalkMessage.update_is_checked_by_ids]
  | cons a l => rfl

/-- Helper: the read update keeps every id in place. -/
theorem map_id_update_read (ids : List Nat) (msgs : List TalkMessage) :
    (TalkMessage.update_is_read_by_ids ids msgs).map TalkMessage.id
      = msgs.map TalkMessage.id := by
  rw [TalkMessage.update_is_read_by_ids, List.map_map]
  apply List.map_congr_left
  intro m _
  by_cases hp : m.id ∈ ids <;> simp [hp]

/-- Helper: the checked update keeps every id in place. -/
theorem map_id_update_checked (ids : List Nat) (msgs : List TalkMessage) :
    (TalkMessage.update_is_checked_by_ids ids msgs).map TalkMessage.id
      = msgs.map TalkMessage.id := by
  rw [TalkMessage.update_is_checked_by_ids, List.map_map]
  apply List.map_congr_left
  intro m _
  by_cases hp : m.id ∈ ids <;> simp [hp]

/-- Helper: primary-key uniqueness survives the read update. -/
theorem nodupIds_update_read (ids : List Nat) (msgs : List TalkMessage)
    (h : NodupIds msgs) :
    NodupIds (TalkMessage.update_is_read_by_ids ids msgs) := by
  rw [NodupIds, map_id_update_read]
  exact h

/-- Helper: ids collected from a filtered selection pin down the selection
predicate on any store row carrying a collected id, given primary-key
uniqueness; sub is any selection whose rows all come from the store. -/
theorem pred_of_id_mem_filter_ids {p : TalkMessage → Bool}
    {msgs sub : List TalkMessage} {m : TalkMessage}
    (hnd : NodupIds msgs) (hsub : ∀ x ∈ sub, x ∈ msgs) (hm : m ∈ msgs)
    (hid : m.id ∈ (sub.filter p).map TalkMessage.id) : p m = true := by
  rcases List.mem_map.mp hid with ⟨m2, hm2, hideq⟩
  rcases List.mem_filter.mp hm2 with ⟨hm2sub, hp2⟩
  have heq : m2 = m :=
    List.inj_on_of_nodup_map hnd (hsub m2 hm2sub) hm hideq
  exact heq ▸ hp2

/-- Helper: conversely, a store row satisfying the selection predicate has
its id collected. -/
theorem id_mem_filter_ids_of_pred {p : TalkMessage → Bool}
    {msgs : List TalkMessage} {m : TalkMessage}
    (hm : m ∈ msgs) (hp : p m = true) :
    m.id ∈ (msgs.filter p).map TalkMessage.id :=
  List.mem_map_of_mem _ (List.mem_filter.mpr ⟨hm, hp⟩)

/-- Helper: under unique ids, the read update driven by the ids of the
rows selected by p is the pointwise update of exactly the rows matching
p. -/
theorem update_read_filter_ids (p : TalkMessage → Bool)
    (msgs : List TalkMessage) (hnd : NodupIds msgs) :
    TalkMessage.update_is_read_by_ids ((msgs.filter p).map TalkMessage.id) msgs
      = msgs.map (fun m => if p m then { m with is_read := true } else m) := by
  rw [TalkMessage.update_is_read_by_ids]
  apply List.map_congr_left
  intro m hm
  by_cases hp : p m = true
  · rw [if_pos (id_mem_filter_ids_of_pred hm hp), if_pos hp]
  · have hni : m.id ∉ (msgs.filter p).map TalkMessage.id := fun hc =>
      hp (pred_of_id_mem_filter_ids hnd (fun x hx => hx) hm hc)
    rw [if_neg hni, if_neg hp]

/-- Helper: the checked analogue of update_read_filter_ids. -/
theorem update_checked_filter_ids (p : TalkMessage → Bool)
    (msgs : List TalkMessage) (hnd : NodupIds msgs) :
    TalkMessage.update_is_checked_by_ids ((msgs.filter p).map TalkMessage.id) msgs
      = msgs.map (fun m => if p m then { m with is_checked := true } else m) := by
  rw [TalkMessage.update_is_checked_by_ids]
  apply List.map_congr_left
  intro m hm
  by_cases hp : p m = true
  · rw [if_pos (id_mem_filter_ids_of_pred hm hp), if_pos hp]
  · have hni : m.id ∉ (msgs.filter p).map TalkMessage.id := fun hc =>
      hp (pred_of_id_mem_filter_ids hnd (fun x hx => hx) hm hc)
    rw [if_neg hni, if_neg hp]

/-- Helper: the read update preserves the checked-implies-read
invariant for any id list. -/
theorem msgInv_update_read (ids : List Nat) (msgs : List TalkMessage)
    (h : MsgInv msgs) :
    MsgInv (TalkMessage.update_is_read_by_ids ids msgs) := by
  intro m2 hm2 hc
  rcases List.mem_map.mp hm2 with ⟨m, hm, rfl⟩
  by_cases hp : m.id ∈ ids
  · simp [hp]
  · simp only [hp, if_neg, if_false] at hc ⊢
    exact h m hm hc

/-- Helper: the checked update preserves the invariant when every listed
id belongs to an already-read row, as at both call sites. -/
theorem msgInv_update_checked (ids : List Nat) (msgs : List TalkMessage)
    (h : MsgInv msgs) (hread : ∀ m ∈ msgs, m.id ∈ ids → m.is_read = true) :
    MsgInv (TalkMessage.update_is_checked_by_ids ids msgs) := by
  intro m2 hm2 hc
  rcases List.mem_map.mp hm2 with ⟨m, hm, rfl⟩
  by_cases hp : m.id ∈ ids
  · simpa [hp] using hread m hm hp
  · simp only [hp, if_neg, if_false] at hc ⊢
    exact h m hm hc

/-- Helper: MonoR is reflexive, pointwise over a list. -/
theorem forall2_monoR_refl (l : List TalkMessage) : List.Forall₂ MonoR l l :=
  List.forall₂_same.mpr (fun _ _ => ⟨rfl, fun h => h, fun h => h⟩)

/-- Helper: a pointwise-monotone map is list-wise monotone. -/
theorem forall2_monoR_map (f : TalkMessage → TalkMessage)
    (hf : ∀ m, MonoR m (f m)) :
    ∀ l : List TalkMessage, List.Forall₂ MonoR l (l.map f)
  | [] => List.Forall₂.nil
  | a :: l => List.Forall₂.cons (hf a) (forall2_monoR_map f hf l)

/-- Helper: MonoR composes along two steps of evolution. -/
theorem forall2_monoR_trans {a b c : List TalkMessage}
    (h1 : List.Forall₂ MonoR a b) (h2 : List.Forall₂ MonoR b c) :
    List.Forall₂ MonoR a c := by
  induction h1 generalizing c with
  | nil => cases h2; exact List.Forall₂.nil
  | cons hab h ih =>
    cases h2 with
    | cons hbc h2 =>
      exact List.Forall₂.cons
        ⟨hbc.1.trans hab.1, fun hr => hbc.2.1 (hab.2.1 hr),
          fun hc => hbc.2.2 (hab.2.2 hc)⟩ (ih h2)

/-- Helper: each row only moves forward under the read update. -/
theorem forall2_update_read (ids : List Nat) (msgs : List TalkMessage) :
    List.Forall₂ MonoR msgs (TalkMessage.update_is_read_by_ids ids msgs) := by
  rw [TalkMessage.update_is_read_by_ids]
  apply forall2_monoR_map
  intro m
  by_cases hp : m.id ∈ ids <;> simp [hp, MonoR]

/-- Helper: each row only moves forward under the checked update. -/
theorem forall2_update_checked (ids : List Nat) (msgs : List TalkMessage) :
    List.Forall₂ MonoR msgs (TalkMessage.update_is_checked_by_ids ids msgs) := by
  rw [TalkMessage.update_is_checked_by_ids]
  apply forall2_monoR_map
  intro m
  by_cases hp : m.id ∈ ids <;> simp [hp, MonoR]

/-- Helper: every row returned by the conversation fetch is a store row. -/
theorem get_friend_messages_subset (db : List TalkMessage) (u v o l : Nat) :
    ∀ m ∈ TalkMessage.get_friend_messages db u v o l, m ∈ db := by
  intro m hm
  have h2 := List.take_subset _ _ hm
  have h3 := List.drop_subset _ _ h2
  rw [List.mem_insertionSort] at h3
  exact (List.mem_filter.mp h3).1

/-- Helper: the final store of message_ajax with the empty-list guards
removed. -/
theorem message_ajax_store_eq (msgs : List TalkMessage) (viewer peer : Nat) :
    (message_ajax msgs viewer peer).store
      = TalkMessage.update_is_checked_by_ids
          ((TalkMessage.select_not_checked_messages
              (TalkMessage.update_is_read_by_ids
                ((TalkMessage.select_not_read_messages msgs peer viewer).map
                  TalkMessage.id) msgs) viewer peer).map TalkMessage.id)
          (TalkMessage.update_is_read_by_ids
            ((TalkMessage.select_not_read_messages msgs peer viewer).map
              TalkMessage.id) msgs) := by
  simp only [message_ajax, ite_isEmpty_update_read, ite_isEmpty_update_checked]

/-- Helper: the store after message_view_updates with the guards
removed. -/
theorem message_view_updates_eq (msgs : List TalkMessage) (viewer peer : Nat) :
    message_view_updates msgs viewer peer
      = TalkMessage.update_is_read_by_ids
          (((TalkMessage.get_friend_messages msgs viewer peer).filter (fun m =>
            m.is_read == false && m.from_user_id == peer)).map TalkMessage.id)
          (TalkMessage.update_is_checked_by_ids
            (((TalkMessage.get_friend_messages msgs viewer peer).filter (fun m =>
              m.is_read == true && m.is_checked == false
              && m.from_user_id == viewer)).map TalkMessage.id)
            msgs) := by
  simp only [message_view_updates, ite_isEmpty_update_read,
    ite_isEmpty_update_checked]

/-- Claim C2: under primary-key uniqueness, the checked-implies-read
invariant holds after every operation: the raw mark-read update with any
id list, the mark-checked update driven by ids of already-read rows (the
only way either call site invokes it), the poll endpoint, and the
conversation view with or without a send; and each surviving row evolves
monotonically, unread to read to checked, with no reverse transition. -/
theorem messaging_checked_implies_read (msgs : List TalkMessage)
    (conns : List UserConnect) (viewer peer : Nat) (post : Option String)
    (fresh_id now : Nat) (ids : List Nat)
    (hnd : NodupIds msgs) (hinv : MsgInv msgs) :
    MsgInv (TalkMessage.update_is_read_by_ids ids msgs)
    ∧ ((∀ m ∈ msgs, m.id ∈ ids → m.is_read = true) →
        MsgInv (TalkMessage.update_is_checked_by_ids ids msgs))
    ∧ MsgInv (message_ajax msgs viewer peer).store
    ∧ List.Forall₂ MonoR msgs (message_ajax msgs viewer peer).store
    ∧ MsgInv (message_view msgs conns viewer peer post fresh_id now)
    ∧ List.Forall₂ MonoR msgs (message_view msgs conns viewer peer none fresh_id now) := by
  have hnd1 : NodupIds (TalkMessage.update_is_read_by_ids
      ((TalkMessage.select_not_read_messages msgs peer viewer).map
        TalkMessage.id) msgs) := nodupIds_update_read _ _ hnd
  have hinv1 : MsgInv (TalkMessage.update_is_read_by_ids
      ((TalkMessage.select_not_read_messages msgs peer viewer).map
        TalkMessage.id) msgs) := msgInv_update_read _ _ hinv
  have hajaxInv : MsgInv (message_ajax msgs viewer peer).store := by
    rw [message_ajax_store_eq]
    apply msgInv_update_checked _ _ hinv1
    intro m hm hid
    simp only [TalkMessage.select_not_checked_messages] at hid
    have hp := pred_of_id_mem_filter_ids hnd1 (fun x hx => hx) hm hid
    simp only [Bool.and_eq_true, beq_iff_eq] at hp
    exact hp.1.2
  have hajaxMono : List.Forall₂ MonoR msgs (message_ajax msgs viewer peer).store := by
    rw [message_ajax_store_eq]
    exact forall2_monoR_trans (forall2_update_read _ _) (forall2_update_checked _ _)
  have hviewInv : MsgInv (message_view_updates msgs viewer peer) := by
    rw [message_view_updates_eq]
    apply msgInv_update_read
    apply msgInv_update_checked _ _ hinv
    intro m hm hid
    have hp := pred_of_id_mem_filter_ids hnd
      (get_friend_messages_subset msgs viewer peer 0 50) hm hid
    simp only [Bool.and_eq_true, beq_iff_eq] at hp
    exact hp.1.1
  have hviewMono : List.Forall₂ MonoR msgs (message_view_updates msgs viewer peer) := by
    rw [message_view_updates_eq]
    exact forall2_monoR_trans (forall2_update_checked _ _) (forall2_update_read _ _)
  refine ⟨msgInv_update_read ids msgs hinv,
    fun hread => msgInv_update_checked ids msgs hinv hread,
    hajaxInv, hajaxMono, ?_, ?_⟩
  · rw [message_view.eq_def]
    by_cases hf : UserConnect.is_friend conns viewer peer = false
    · rw [if_pos hf]
      exact hinv
    · rw [if_neg hf]
      cases post with
      | none => exact hviewInv
      | some text =>
        by_cases hv : MessageForm.validate conns viewer peer = true
        · show MsgInv (if MessageForm.validate conns viewer peer then _ else _)
          rw [if_pos hv]
          intro m hm hc
          rcases List.mem_append.mp hm with hm1 | hm2
          · exact hviewInv m hm1 hc
          · rw [List.mem_singleton.mp hm2] at hc
            cases hc
        · show MsgInv (if MessageForm.validate conns viewer peer then _ else _)
          rw [if_neg hv]
          exact hviewInv
  · rw [message_view.eq_def]
    by_cases hf : UserConnect.is_friend conns viewer peer = false
    · rw [if_pos hf]
      exact forall2_monoR_refl msgs
    · rw [if_neg hf]
      exact hviewMono

/-- Witness for messaging_checked_implies_read: one read, unchecked
message from user 1 to user 2, friends, polled by user 1. -/
theorem messaging_checked_implies_read_witness :
    MsgInv (message_ajax [⟨1, 1, 2, true, false, "a", 0, 0⟩] 1 2).store
    ∧ List.Forall₂ MonoR [⟨1, 1, 2, true, false, "a", 0, 0⟩]
        (message_ajax [⟨1, 1, 2, true, false, "a", 0, 0⟩] 1 2).store
    ∧ MsgInv (message_view [⟨1, 1, 2, true, false, "a", 0, 0⟩]
        [⟨1, 1, 2, 2, 0, 0⟩] 1 2 (some "hi") 3 4) :=
  ⟨(messaging_checked_implies_read [⟨1, 1, 2, true, false, "a", 0, 0⟩]
      [⟨1, 1, 2, 2, 0, 0⟩] 1 2 (some "hi") 3 4 [1]
      (by decide) (by decide)).2.2.1,
   (messaging_checked_implies_read [⟨1, 1, 2, true, false, "a", 0, 0⟩]
      [⟨1, 1, 2, 2, 0, 0⟩] 1 2 (some "hi") 3 4 [1]
      (by decide) (by decide)).2.2.2.1,
   (messaging_checked_implies_read [⟨1, 1, 2, true, false, "a", 0, 0⟩]
      [⟨1, 1, 2, 2, 0, 0⟩] 1 2 (some "hi") 3 4 [1]
      (by decide) (by decide)).2.2.2.2.1⟩

/-- Helper: filtering after a map is filtering before it, when the map
neither changes the predicate's verdict nor moves any row the predicate
keeps. -/
theorem filter_map_eq_filter (f : TalkMessage → TalkMessage)
    (p : TalkMessage → Bool) (msgs : List TalkMessage)
    (h : ∀ m ∈ msgs, p (f m) = p m ∧ (p m = true → f m = m)) :
    (msgs.map f).filter p = msgs.filter p := by
  induction msgs with
  | nil => rfl
  | cons a l ih =>
    rcases h a (List.mem_cons_self a l) with ⟨h1, h2⟩
    rw [List.map_cons, List.filter_cons, List.filter_cons, h1]
    by_cases hp : p a = true
    · rw [if_pos hp, if_pos hp, h2 hp,
        ih (fun m hm => h m (List.mem_cons_of_mem a hm))]
    · rw [if_neg hp, if_neg hp, ih (fun m hm => h m (List.mem_cons_of_mem a hm))]

/-- Claim C3: the poll endpoint, under primary-key uniqueness and distinct
viewer and peer: (a) returns exactly the peer-to-viewer unread messages
and (b) exactly the ids of the viewer-to-peer read-but-unchecked
messages, and its final store raises is_read on exactly the first set,
is_checked on exactly the second, leaving every other row untouched. -/
theorem message_ajax_contract (msgs : List TalkMessage) (viewer peer : Nat)
    (hnd : NodupIds msgs) (hne : viewer ≠ peer) :
    (message_ajax msgs viewer peer).data
        = msgs.filter (fun m =>
            m.from_user_id == peer && m.to_user_id == viewer && m.is_read == false)
    ∧ (message_ajax msgs viewer peer).checked_message_ids
        = (msgs.filter (fun m =>
            m.from_user_id == viewer && m.to_user_id == peer
            && m.is_read == true && m.is_checked == false)).map TalkMessage.id
    ∧ (message_ajax msgs viewer peer).store
        = msgs.map (fun m =>
            if m.from_user_id == peer && m.to_user_id == viewer && m.is_read == false
            then { m with is_read := true }
            else if m.from_user_id == viewer && m.to_user_id == peer
                && m.is_read == true && m.is_checked == false
            then { m with is_checked := true }
            else m) := by
  have hfrom_ne : ∀ m : TalkMessage, m.from_user_id = peer →
      (m.from_user_id == viewer) = false := by
    intro m hf
    rw [hf, beq_eq_false_iff_ne]
    exact fun hc => hne hc.symm
  have h1 : TalkMessage.update_is_read_by_ids
      ((TalkMessage.select_not_read_messages msgs peer viewer).map
        TalkMessage.id) msgs
      = msgs.map (fun m =>
          if m.from_user_id == peer && m.to_user_id == viewer && m.is_read == false
          then { m with is_read := true } else m) := by
    simp only [TalkMessage.select_not_read_messages]
    exact update_read_filter_ids _ msgs hnd
  have hstable : ∀ m ∈ msgs,
      ((fun m2 : TalkMessage => m2.from_user_id == viewer && m2.to_user_id == peer
        && m2.is_read == true && m2.is_checked == false)
          ((fun m3 : TalkMessage =>
            if m3.from_user_id == peer && m3.to_user_id == viewer && m3.is_read == false
            then { m3 with is_read := true } else m3) m)
        = (fun m2 : TalkMessage => m2.from_user_id == viewer && m2.to_user_id == peer
            && m2.is_read == true && m2.is_checked == false) m)
      ∧ ((fun m2 : TalkMessage => m2.from_user_id == viewer && m2.to_user_id == peer
          && m2.is_read == true && m2.is_checked == false) m = true →
          (fun m3 : TalkMessage =>
            if m3.from_user_id == peer && m3.to_user_id == viewer && m3.is_read == false
            then { m3 with is_read := true } else m3) m = m) := by
    intro m _
    simp only
    by_cases hpa : (m.from_user_id == peer && m.to_user_id == viewer
        && m.is_read == false) = true
    · have hf : m.from_user_id = peer := by
        simp only [Bool.and_eq_true, beq_iff_eq] at hpa
        exact hpa.1.1
      have hv := hfrom_ne m hf
      rw [if_pos hpa]
      constructor
      · simp [hv]
      · intro hpb
        exfalso
        simp only [Bool.and_eq_true, beq_iff_eq] at hpb
        exact hne (hf.symm.trans hpb.1.1.1).symm
    · rw [if_neg hpa]
      exact ⟨rfl, fun _ => rfl⟩
  have h2 := filter_map_eq_filter
    (fun m3 : TalkMessage =>
      if m3.from_user_id == peer && m3.to_user_id == viewer && m3.is_read == false
      then { m3 with is_read := true } else m3)
    (fun m2 : TalkMessage => m2.from_user_id == viewer && m2.to_user_id == peer
      && m2.is_read == true && m2.is_checked == false) msgs hstable
  have hnd1 : NodupIds (TalkMessage.update_is_read_by_ids
      ((TalkMessage.select_not_read_messages msgs peer viewer).map
        TalkMessage.id) msgs) := nodupIds_update_read _ _ hnd
  have h3 : TalkMessage.update_is_checked_by_ids
      ((TalkMessage.select_not_checked_messages
          (TalkMessage.update_is_read_by_ids
            ((TalkMessage.select_not_read_messages msgs peer viewer).map
              TalkMessage.id) msgs) viewer peer).map TalkMessage.id)
      (TalkMessage.update_is_read_by_ids
        ((TalkMessage.select_not_read_messages msgs peer viewer).map
          TalkMessage.id) msgs)
      = (TalkMessage.update_is_read_by_ids
          ((TalkMessage.select_not_read_messages msgs peer viewer).map
            TalkMessage.id) msgs).map (fun m =>
          if m.from_user_id == viewer && m.to_user_id == peer
            && m.is_read == true && m.is_checked == false
          then { m with is_checked := true } else m) := by
    simp only [TalkMessage.select_not_checked_messages]
    exact update_checked_filter_ids _ _ hnd1
  refine ⟨rfl, ?_, ?_⟩
  · have hids : (message_ajax msgs viewer peer).checked_message_ids
        = (TalkMessage.select_not_checked_messages
            (TalkMessage.update_is_read_by_ids
              ((TalkMessage.select_not_read_messages msgs peer viewer).map
                TalkMessage.id) msgs) viewer peer).map TalkMessage.id := by
      simp only [message_ajax, ite_isEmpty_update_read]
    rw [hids]
    simp only [TalkMessage.select_not_checked_messages, h1]
    rw [h2]
  · rw [message_ajax_store_eq, h3, h1, List.map_map]
    apply List.map_congr_left
    intro m _
    simp only [Function.comp_apply]
    by_cases hpa : (m.from_user_id == peer && m.to_user_id == viewer
        && m.is_read == false) = true
    · have hf : m.from_user_id = peer := by
        simp only [Bool.and_eq_true, beq_iff_eq] at hpa
        exact hpa.1.1
      have hv := hfrom_ne m hf
      rw [if_pos hpa, if_pos hpa, if_neg (by simp [hv])]
    · rw [if_neg hpa, if_neg hpa]

/-- Witness for message_ajax_contract: user 1 polls peer 2 over a store
with one unread incoming message and one read-but-unchecked outgoing
message. -/
theorem message_ajax_contract_witness :
    (message_ajax [⟨1, 2, 1, false, false, "in", 0, 0⟩,
        ⟨2, 1, 2, true, false, "out", 0, 0⟩] 1 2).data
      = [⟨1, 2, 1, false, false, "in", 0, 0⟩]
    ∧ (message_ajax [⟨1, 2, 1, false, false, "in", 0, 0⟩,
        ⟨2, 1, 2, true, false, "out", 0, 0⟩] 1 2).checked_message_ids = [2]
    ∧ (message_ajax [⟨1, 2, 1, false, false, "in", 0, 0⟩,
        ⟨2, 1, 2, true, false, "out", 0, 0⟩] 1 2).store
      = [⟨1, 2, 1, true, false, "in", 0, 0⟩, ⟨2, 1, 2, true, true, "out", 0, 0⟩] := by
  have h := message_ajax_contract
    [⟨1, 2, 1, false, false, "in", 0, 0⟩, ⟨2, 1, 2, true, false, "out", 0, 0⟩]
    1 2 (by decide) (by decide)
  exact ⟨h.1.trans (by decide), h.2.1.trans (by decide), h.2.2.trans (by decide)⟩

/-- Claim C5: a send attempt to a non-friend is rejected before any store
write, leaving the message store exactly as it was; a send to a friend
appends exactly one new row, carrying is_read false and is_checked false,
after the view's usual flag updates. -/
theorem send_message_requires_friend (msgs : List TalkMessage)
    (conns : List UserConnect) (viewer peer : Nat) (text : String)
    (fresh_id now : Nat) :
    (UserConnect.is_friend conns viewer peer = false →
      message_view msgs conns viewer peer (some text) fresh_id now = msgs)
    ∧ (UserConnect.is_friend conns viewer peer = true →
      message_view msgs conns viewer peer (some text) fresh_id now
        = message_view_updates msgs viewer peer
          ++ [⟨fresh_id, viewer, peer, false, false, text, now, now⟩]
      ∧ (message_view_updates msgs viewer peer).length = msgs.length
      ∧ (⟨fresh_id, viewer, peer, false, false, text, now, now⟩ : TalkMessage).is_read
          = false
      ∧ (⟨fresh_id, viewer, peer, false, false, text, now, now⟩ : TalkMessage).is_checked
          = false) := by
  constructor
  · intro h
    rw [message_view.eq_def, if_pos h]
  · intro h
    have hlen : (message_view_updates msgs viewer peer).length = msgs.length := by
      rw [message_view_updates_eq, TalkMessage.update_is_read_by_ids,
        TalkMessage.update_is_checked_by_ids]
      simp
    refine ⟨?_, hlen, rfl, rfl⟩
    rw [message_view.eq_def, if_neg (by simp [h])]
    show (if MessageForm.validate conns viewer peer then _ else _) = _
    rw [if_pos (show MessageForm.validate conns viewer peer = true from h)]

/-- Witness for send_message_requires_friend: user 3 sending to
non-friend 1 leaves the empty store empty; user 1 sending to friend 2
appends exactly the one new unread, unchecked row. -/
theorem send_message_requires_friend_witness :
    message_view [] [] 3 1 (some "x") 9 9 = []
    ∧ message_view [] [⟨1, 1, 2, 2, 0, 0⟩] 1 2 (some "hello") 4 7
        = [⟨4, 1, 2, false, false, "hello", 7, 7⟩] :=
  ⟨(send_message_requires_friend [] [] 3 1 "x" 9 9).1 (by decide),
   (((send_message_requires_friend [] [⟨1, 1, 2, 2, 0, 0⟩] 1 2 "hello" 4 7).2
      (by decide)).1).trans (by decide)⟩
